import Mathlib

/-!
Shallow embedding of the asynchronous problem-submission pipeline and its
security/session layer: identifier utilities (`utils/uuid.ts` and the copies
inside the edge function), the `secure-submit-problem` edge function handler,
the `SecurityManager` rate limiter (`lib/security.ts`), the session validation
of `useSecureSession`, and the client polling loop of `useProblemSubmission`.

JavaScript numbers are modelled as `Nat`/`Int` with explicit 32-bit wrapping
where the source relies on it; `Map` state is modelled as an association list;
fallible steps are modelled by explicit outcome parameters; randomness
(`Math.random() * 16 | 0`) is modelled as a stream of nibbles `Nat → Fin 16`.
-/

namespace JsUuid

/-- Digit characters produced by JavaScript `Number.prototype.toString(16)`
for a single nibble: `0`-`9` then lowercase `a`-`f`. -/
def hexChar (v : Fin 16) : Char :=
  if v.val < 10 then Char.ofNat (48 + v.val) else Char.ofNat (87 + v.val)

/-- Character class `[0-9a-f]` under the `i` regex flag (so `A`-`F` as well). -/
def isHexDigit (c : Char) : Bool :=
  (decide ('0' ≤ c) && decide (c ≤ '9')) ||
  (decide ('a' ≤ c) && decide (c ≤ 'f')) ||
  (decide ('A' ≤ c) && decide (c ≤ 'F'))

/-- Character class `[89ab]` under the `i` regex flag. -/
def isVariantChar (c : Char) : Bool :=
  c = '8' || c = '9' || c = 'a' || c = 'b' || c = 'A' || c = 'B'

/-- Consume exactly `n` characters satisfying `p` (regex `p{n}`),
returning the rest of the input, or `none` on a mismatch. -/
def matchRun (p : Char → Bool) : Nat → List Char → Option (List Char)
  | 0, cs => some cs
  | _ + 1, [] => none
  | n + 1, c :: cs => if p c then matchRun p n cs else none

/-- Consume one literal character. -/
def matchLit (t : Char) : List Char → Option (List Char)
  | [] => none
  | c :: cs => if c = t then some cs else none

/-- Consume one character of a character class. -/
def matchCls (p : Char → Bool) : List Char → Option (List Char)
  | [] => none
  | c :: cs => if p c then some cs else none

end JsUuid

namespace UuidUtils

/-- Regex `^[0-9a-f]\x7b8\x7d-[0-9a-f]\x7b4\x7d-4[0-9a-f]\x7b3\x7d-[89ab][0-9a-f]\x7b3\x7d-[0-9a-f]\x7b12\x7d$` with flag `i`,
plus the leading falsy guard, from `isValidUUID` in `utils/uuid.ts`: the strict
UUID v4 shape (version nibble `4`, variant nibble in 8/9/a/b). -/
def isValidUUID (s : String) : Bool :=
  if s.data.isEmpty then false
  else
    match (JsUuid.matchRun JsUuid.isHexDigit 8 s.data).bind (fun r =>
          (JsUuid.matchLit '-' r).bind (fun r =>
          (JsUuid.matchRun JsUuid.isHexDigit 4 r).bind (fun r =>
          (JsUuid.matchLit '-' r).bind (fun r =>
          (JsUuid.matchLit '4' r).bind (fun r =>
          (JsUuid.matchRun JsUuid.isHexDigit 3 r).bind (fun r =>
          (JsUuid.matchLit '-' r).bind (fun r =>
          (JsUuid.matchCls JsUuid.isVariantChar r).bind (fun r =>
          (JsUuid.matchRun JsUuid.isHexDigit 3 r).bind (fun r =>
          (JsUuid.matchLit '-' r).bind (fun r =>
          JsUuid.matchRun JsUuid.isHexDigit 12 r)))))))))) with
    | some [] => true
    | _ => false

/-- The template string of `generateUUID`. -/
def uuidTemplate : List Char := "xxxxxxxx-xxxx-4xxx-yxxx-xxxxxxxxxxxx".data

/-- Variant nibble `(r & 0x3) | 0x8` is again a nibble. -/
theorem variantNibble_lt : ∀ v : Fin 16, ((v.val &&& 3) ||| 8) < 16 := by decide

/-- Replacement pass of `String.prototype.replace(/[xy]/g, cb)`: each matched
`x`/`y` consumes the next random nibble `rnd k` (one `Math.random()` call per
match, in order); other characters are kept. -/
def replaceXY (rnd : Nat → Fin 16) : Nat → List Char → List Char
  | _, [] => []
  | k, c :: cs =>
    if c = 'x' then JsUuid.hexChar (rnd k) :: replaceXY rnd (k + 1) cs
    else if c = 'y' then
      JsUuid.hexChar ⟨((rnd k).val &&& 3) ||| 8, variantNibble_lt (rnd k)⟩ ::
        replaceXY rnd (k + 1) cs
    else c :: replaceXY rnd k cs

/-- `generateUUID` from `utils/uuid.ts`: random UUID v4 from the template
`xxxxxxxx-xxxx-4xxx-yxxx-xxxxxxxxxxxx`. -/
def generateUUID (rnd : Nat → Fin 16) : String :=
  ⟨replaceXY rnd 0 uuidTemplate⟩

end UuidUtils

namespace EdgeFn

/-- Regex `^[0-9a-f]\x7b8\x7d-[0-9a-f]\x7b4\x7d-[0-9a-f]\x7b4\x7d-[0-9a-f]\x7b4\x7d-[0-9a-f]\x7b12\x7d$` with flag `i`
from `isValidUUID` inside the edge function (also duplicated in
`useProblemSubmission.ts`): any 8-4-4-4-12 hex shape, with NO version or
variant constraint. -/
def isValidUUID (s : String) : Bool :=
  match (JsUuid.matchRun JsUuid.isHexDigit 8 s.data).bind (fun r =>
        (JsUuid.matchLit '-' r).bind (fun r =>
        (JsUuid.matchRun JsUuid.isHexDigit 4 r).bind (fun r =>
        (JsUuid.matchLit '-' r).bind (fun r =>
        (JsUuid.matchRun JsUuid.isHexDigit 4 r).bind (fun r =>
        (JsUuid.matchLit '-' r).bind (fun r =>
        (JsUuid.matchRun JsUuid.isHexDigit 4 r).bind (fun r =>
        (JsUuid.matchLit '-' r).bind (fun r =>
        JsUuid.matchRun JsUuid.isHexDigit 12 r)))))))) with
  | some [] => true
  | _ => false

/-- `generateUUID` inside the edge function: character-for-character the same
implementation as the copy in `utils/uuid.ts`. -/
def generateUUID (rnd : Nat → Fin 16) : String :=
  UuidUtils.generateUUID rnd

/-- `DEFAULT_USER_ID`, the well-known guest identifier of the edge function
(matching `constants/user.ts`). -/
def DEFAULT_USER_ID : String := "12345678-1234-5678-1234-567812345678"

end EdgeFn

section UuidLemmas

/-- Every nibble renders as a hex digit. -/
theorem isHexDigit_hexChar : ∀ v : Fin 16, JsUuid.isHexDigit (JsUuid.hexChar v) = true := by
  decide

/-- The rendered variant nibble is in the `[89ab]` class. -/
theorem isVariantChar_hexChar :
    ∀ v : Fin 16,
      JsUuid.isVariantChar
        (JsUuid.hexChar ⟨((v.val &&& 3) ||| 8), UuidUtils.variantNibble_lt v⟩) = true := by
  decide

/-- The generated string, spelled out: 30 random hex nibbles, the literal
version `4`, and one variant nibble, in the 8-4-4-4-12 layout. -/
theorem generateUUID_data (rnd : Nat → Fin 16) :
    (UuidUtils.generateUUID rnd).data =
      [JsUuid.hexChar (rnd 0), JsUuid.hexChar (rnd 1), JsUuid.hexChar (rnd 2),
       JsUuid.hexChar (rnd 3), JsUuid.hexChar (rnd 4), JsUuid.hexChar (rnd 5),
       JsUuid.hexChar (rnd 6), JsUuid.hexChar (rnd 7), '-',
       JsUuid.hexChar (rnd 8), JsUuid.hexChar (rnd 9), JsUuid.hexChar (rnd 10),
       JsUuid.hexChar (rnd 11), '-', '4',
       JsUuid.hexChar (rnd 12), JsUuid.hexChar (rnd 13), JsUuid.hexChar (rnd 14), '-',
       JsUuid.hexChar ⟨(((rnd 15).val &&& 3) ||| 8), UuidUtils.variantNibble_lt (rnd 15)⟩,
       JsUuid.hexChar (rnd 16), JsUuid.hexChar (rnd 17), JsUuid.hexChar (rnd 18), '-',
       JsUuid.hexChar (rnd 19), JsUuid.hexChar (rnd 20), JsUuid.hexChar (rnd 21),
       JsUuid.hexChar (rnd 22), JsUuid.hexChar (rnd 23), JsUuid.hexChar (rnd 24),
       JsUuid.hexChar (rnd 25), JsUuid.hexChar (rnd 26), JsUuid.hexChar (rnd 27),
       JsUuid.hexChar (rnd 28), JsUuid.hexChar (rnd 29), JsUuid.hexChar (rnd 30)] := rfl

/-- A generated UUID always passes the strict validator of `utils/uuid.ts`. -/
theorem generateUUID_strict_valid (rnd : Nat → Fin 16) :
    UuidUtils.isValidUUID (UuidUtils.generateUUID rnd) = true := by
  simp only [UuidUtils.isValidUUID]
  rw [generateUUID_data]
  simp [JsUuid.matchRun, JsUuid.matchLit, JsUuid.matchCls,
    isHexDigit_hexChar, isVariantChar_hexChar]

/-- The literal version character also counts as a hex digit. -/
theorem isHexDigit_four : JsUuid.isHexDigit '4' = true := by decide

/-- A generated UUID always passes the loose validator of the edge function. -/
theorem generateUUID_loose_valid (rnd : Nat → Fin 16) :
    EdgeFn.isValidUUID (UuidUtils.generateUUID rnd) = true := by
  simp only [EdgeFn.isValidUUID]
  rw [generateUUID_data]
  simp [JsUuid.matchRun, JsUuid.matchLit, isHexDigit_hexChar, isHexDigit_four]

end UuidLemmas

example : EdgeFn.isValidUUID EdgeFn.DEFAULT_USER_ID = true := by decide

example : UuidUtils.isValidUUID EdgeFn.DEFAULT_USER_ID = false := by decide

example : UuidUtils.isValidUUID "12345678-1234-4678-9234-567812345678" = true := by decide

namespace JsNum

/-- JavaScript `ToInt32` (the semantics of `|`, `&`, `<<` operands/results):
wrap into the signed 32-bit range. -/
def toInt32 (n : Int) : Int := (n + 2147483648) % 4294967296 - 2147483648

/-- `toInt32` lands in the signed 32-bit range. -/
theorem toInt32_lb (n : Int) : -2147483648 ≤ toInt32 n := by
  have h := Int.emod_nonneg (n + 2147483648) (by norm_num : (4294967296 : Int) ≠ 0)
  unfold toInt32
  omega

/-- `toInt32` lands in the signed 32-bit range. -/
theorem toInt32_ub (n : Int) : toInt32 n < 2147483648 := by
  have h := Int.emod_lt_of_pos (n + 2147483648) (by norm_num : (0 : Int) < 4294967296)
  unfold toInt32
  omega

end JsNum

namespace UuidUtils

/-- One step of the rolling hash of `stringToUUID`:
`hash = ((hash << 5) - hash) + char; hash = hash & hash`.  In JavaScript
`hash << 5` is `ToInt32(hash * 32)` and the trailing `hash & hash` is a
second `ToInt32`. -/
def hashStep (h : Int) (c : Nat) : Int :=
  JsNum.toInt32 (JsNum.toInt32 (h * 32) - h + c)

/-- The rolling hash over the UTF-16 code units of the input (`charCodeAt`),
starting from 0. -/
def jsHash (cs : List Char) : Int :=
  cs.foldl (fun h c => hashStep h c.toNat) 0

/-- Fuel-driven core of the hex rendering (structural recursion; the fuel
`n + 1` always suffices because the value shrinks by a factor of 16). -/
def toHexCore : Nat → Nat → List Char
  | 0, _ => []
  | fuel + 1, n =>
    if h : n < 16 then [JsUuid.hexChar ⟨n, h⟩]
    else toHexCore fuel (n / 16) ++ [JsUuid.hexChar ⟨n % 16, Nat.mod_lt _ (by omega)⟩]

/-- JavaScript `Number.prototype.toString(16)` for a nonnegative integer:
most-significant nibble first, lowercase, `"0"` for zero. -/
def toHexNat (n : Nat) : List Char := toHexCore (n + 1) n

/-- `String.prototype.slice(a, b)` for the in-range indices used by
`stringToUUID`. -/
def jsSlice (cs : List Char) (a b : Nat) : List Char := (cs.take b).drop a

/-- `parseInt(c, 16)` on a single character (0 on a non-hex character,
standing in for the `NaN` case, which `stringToUUID` never hits). -/
def hexVal (c : Char) : Nat :=
  if '0' ≤ c ∧ c ≤ '9' then c.toNat - 48
  else if 'a' ≤ c ∧ c ≤ 'f' then c.toNat - 87
  else if 'A' ≤ c ∧ c ≤ 'F' then c.toNat - 55
  else 0

/-- The variant nibble `(x & 0x3) | 0x8` computed from `parseInt(hashHex[15], 16)`. -/
def variantFin (x : Nat) : Fin 16 :=
  ⟨(x &&& 3) ||| 8, by
    have h3 : x &&& 3 < 4 := Nat.lt_succ_of_le (Nat.le_of_lt_succ
      (Nat.lt_succ_of_le (Nat.and_le_right)))
    have h8 : ((x &&& 3) ||| 8) < 16 :=
      Nat.or_lt_two_pow (n := 4) (by omega) (by omega)
    exact h8⟩

/-- `stringToUUID` from `utils/uuid.ts`: rolling 32-bit hash of the input,
absolute value rendered in hex, zero-padded to 32 characters (and truncated to
32 — unreachable, the hex of a 32-bit value has at most 8 digits), then
assembled into `slice(0,8)-slice(8,12)-4+slice(12,15)-variant+slice(16,19)-slice(19,31)`.
The source throws on a falsy (empty) input; that is the `none` case. -/
def stringToUUID (s : String) : Option String :=
  if s.data.isEmpty then none
  else
    let hash := jsHash s.data
    let positiveHash := hash.natAbs
    let hex0 := toHexNat positiveHash
    let padded := List.replicate (32 - hex0.length) '0' ++ hex0
    let hashHex := if 32 < padded.length then padded.take 32 else padded
    let c15 := hashHex.getD 15 '0'
    some ⟨jsSlice hashHex 0 8 ++ ['-'] ++ jsSlice hashHex 8 12 ++ ['-'] ++
          ('4' :: jsSlice hashHex 12 15) ++ ['-'] ++
          (JsUuid.hexChar (variantFin (hexVal c15)) :: jsSlice hashHex 16 19) ++ ['-'] ++
          jsSlice hashHex 19 31⟩

/-- `ensureUUID` from `utils/uuid.ts`: keep an already-valid UUID, otherwise
derive one with `stringToUUID`. -/
def ensureUUID (s : String) : Option String :=
  if isValidUUID s then some s else stringToUUID s

/-- `createNamespacedUUID` from `utils/uuid.ts`: derive from
`namespace:value`.  The combined string is never empty, so the derivation
never throws. -/
def createNamespacedUUID (ns v : String) : Option String :=
  stringToUUID (ns ++ ":" ++ v)

end UuidUtils

set_option maxRecDepth 8000 in
example : (UuidUtils.stringToUUID "user_123").isSome = true := by decide

set_option maxRecDepth 8000 in
example :
    ∀ u, UuidUtils.stringToUUID "user_123" = some u → UuidUtils.isValidUUID u = true := by
  decide

section StringToUUIDLemmas

/-- The zero-padding character is a hex digit. -/
theorem isHexDigit_zeroChar : JsUuid.isHexDigit '0' = true := by decide

/-- Consuming a run: a block of `n` characters all in the class is accepted
and the matcher moves past it. -/
theorem matchRun_append (p : Char → Bool) (xs ys : List Char)
    (h : ∀ c ∈ xs, p c = true) :
    JsUuid.matchRun p xs.length (xs ++ ys) = some ys := by
  induction xs with
  | nil => rfl
  | cons c cs ih =>
    simp only [List.length_cons, List.cons_append, JsUuid.matchRun,
      h c (List.mem_cons_self c cs), if_true]
    exact ih fun d hd => h d (List.mem_cons_of_mem c hd)

/-- Run matcher with the length given as an equation, for rewriting. -/
theorem matchRun_eq_append (p : Char → Bool) (n : Nat) (xs ys : List Char)
    (hn : xs.length = n) (h : ∀ c ∈ xs, p c = true) :
    JsUuid.matchRun p n (xs ++ ys) = some ys := by
  subst hn
  exact matchRun_append p xs ys h

/-- Literal matcher on a matching head. -/
theorem matchLit_cons (t : Char) (cs : List Char) :
    JsUuid.matchLit t (t :: cs) = some cs := by
  simp [JsUuid.matchLit]

/-- Class matcher on a matching head. -/
theorem matchCls_cons (p : Char → Bool) (c : Char) (cs : List Char) (h : p c = true) :
    JsUuid.matchCls p (c :: cs) = some cs := by
  simp [JsUuid.matchCls, h]

/-- The rolling hash always stays in the signed 32-bit range. -/
theorem jsHash_range (cs : List Char) :
    -2147483648 ≤ UuidUtils.jsHash cs ∧ UuidUtils.jsHash cs < 2147483648 := by
  have main : ∀ (l : List Char) (h : Int),
      -2147483648 ≤ h → h < 2147483648 →
      -2147483648 ≤ l.foldl (fun h c => UuidUtils.hashStep h c.toNat) h ∧
        l.foldl (fun h c => UuidUtils.hashStep h c.toNat) h < 2147483648 := by
    intro l
    induction l with
    | nil => intro h h1 h2; exact ⟨h1, h2⟩
    | cons c cs ih =>
      intro h _ _
      exact ih _ (JsNum.toInt32_lb _) (JsNum.toInt32_ub _)
  exact main cs 0 (by norm_num) (by norm_num)

/-- The absolute value of the hash fits in 8 hex digits. -/
theorem jsHash_natAbs_lt (cs : List Char) :
    (UuidUtils.jsHash cs).natAbs < 4294967296 := by
  have h := jsHash_range cs
  omega

/-- Every character emitted by the hex renderer is a hex digit. -/
theorem toHexCore_hex (fuel : Nat) :
    ∀ n, ∀ c ∈ UuidUtils.toHexCore fuel n, JsUuid.isHexDigit c = true := by
  induction fuel with
  | zero => intro n c hc; simp [UuidUtils.toHexCore] at hc
  | succ fuel ih =>
    intro n c hc
    rw [UuidUtils.toHexCore] at hc
    split at hc
    · simp only [List.mem_singleton] at hc
      subst hc; exact isHexDigit_hexChar _
    · rcases List.mem_append.mp hc with h1 | h2
      · exact ih _ c h1
      · simp only [List.mem_singleton] at h2
        subst h2; exact isHexDigit_hexChar _

/-- A value below `16 ^ k` renders in at most `k` hex digits. -/
theorem toHexCore_length_le (fuel : Nat) :
    ∀ n k, 0 < k → n < 16 ^ k → (UuidUtils.toHexCore fuel n).length ≤ k := by
  induction fuel with
  | zero => intro n k hk _; simp [UuidUtils.toHexCore]
  | succ fuel ih =>
    intro n k hk hn
    rw [UuidUtils.toHexCore]
    split
    · simpa using hk
    · rename_i hge
      have hk2 : 2 ≤ k := by
        rcases Nat.lt_or_ge k 2 with h | h
        · interval_cases k
          · simp at hn; omega
        · exact h
      have hdiv : n / 16 < 16 ^ (k - 1) := by
        have hlt : n < 16 ^ (k - 1) * 16 := by
          have hpow : 16 ^ (k - 1) * 16 = 16 ^ k := by
            rw [← pow_succ]
            congr 1
            omega
          omega
        omega
      have := ih (n / 16) (k - 1) (by omega) hdiv
      simp only [List.length_append, List.length_singleton]
      omega

/-- `jsSlice` keeps only characters of the original list. -/
theorem jsSlice_mem (cs : List Char) (a b : Nat) :
    ∀ c ∈ UuidUtils.jsSlice cs a b, c ∈ cs := fun c hc =>
  List.mem_of_mem_take (List.mem_of_mem_drop hc)

/-- Length of `jsSlice` within bounds. -/
theorem jsSlice_length (cs : List Char) (a b : Nat) :
    (UuidUtils.jsSlice cs a b).length = min b cs.length - a := by
  simp [UuidUtils.jsSlice]

/-- The variant nibble, over its 4 possible low parts, renders in `[89ab]`. -/
theorem isVariantChar_hexChar_or8 :
    ∀ w : Fin 4, JsUuid.isVariantChar
      (JsUuid.hexChar ⟨w.val ||| 8, Nat.or_lt_two_pow (n := 4) (by omega) (by omega)⟩) = true := by
  decide

/-- The rendered variant nibble of `stringToUUID` is in the `[89ab]` class. -/
theorem isVariantChar_variantFin (x : Nat) :
    JsUuid.isVariantChar (JsUuid.hexChar (UuidUtils.variantFin x)) = true := by
  have h3 : x &&& 3 < 4 := Nat.lt_of_le_of_lt Nat.and_le_right (by norm_num)
  exact isVariantChar_hexChar_or8 ⟨x &&& 3, h3⟩

/-- Any string assembled from hex groups of lengths 8/4/3/3/12, the literal
version character and a variant-class character passes the strict validator. -/
theorem isValidUUID_ofParts (g1 g2 g3 g4 g5 : List Char) (vc : Char)
    (h1 : g1.length = 8) (h2 : g2.length = 4) (h3 : g3.length = 3)
    (h4 : g4.length = 3) (h5 : g5.length = 12)
    (a1 : ∀ c ∈ g1, JsUuid.isHexDigit c = true)
    (a2 : ∀ c ∈ g2, JsUuid.isHexDigit c = true)
    (a3 : ∀ c ∈ g3, JsUuid.isHexDigit c = true)
    (a4 : ∀ c ∈ g4, JsUuid.isHexDigit c = true)
    (a5 : ∀ c ∈ g5, JsUuid.isHexDigit c = true)
    (hv : JsUuid.isVariantChar vc = true) :
    UuidUtils.isValidUUID
      ⟨g1 ++ ['-'] ++ g2 ++ ['-'] ++ ('4' :: g3) ++ ['-'] ++
        (vc :: g4) ++ ['-'] ++ g5⟩ = true := by
  have hne :
      (g1 ++ ['-'] ++ g2 ++ ['-'] ++ ('4' :: g3) ++ ['-'] ++
        (vc :: g4) ++ ['-'] ++ g5).isEmpty = false := by
    rw [List.isEmpty_eq_false]
    intro he
    have := congrArg List.length he
    simp [h1, h2, h3, h4, h5] at this
  simp only [UuidUtils.isValidUUID, hne, Bool.false_eq_true, if_false]
  have assoc :
      g1 ++ ['-'] ++ g2 ++ ['-'] ++ ('4' :: g3) ++ ['-'] ++ (vc :: g4) ++ ['-'] ++ g5 =
        g1 ++ ('-' :: (g2 ++ ('-' :: ('4' :: (g3 ++ ('-' :: (vc :: (g4 ++ ('-' :: g5))))))))) := by
    simp [List.append_assoc]
  rw [assoc]
  rw [matchRun_eq_append JsUuid.isHexDigit 8 g1 _ h1 a1]
  simp only [Option.some_bind, matchLit_cons]
  rw [matchRun_eq_append JsUuid.isHexDigit 4 g2 _ h2 a2]
  simp only [Option.some_bind, matchLit_cons]
  rw [matchRun_eq_append JsUuid.isHexDigit 3 g3 _ h3 a3]
  simp only [Option.some_bind, matchLit_cons, matchCls_cons JsUuid.isVariantChar vc _ hv]
  rw [matchRun_eq_append JsUuid.isHexDigit 3 g4 _ h4 a4]
  simp only [Option.some_bind, matchLit_cons]
  have h5e : JsUuid.matchRun JsUuid.isHexDigit 12 g5 = some [] := by
    have := matchRun_eq_append JsUuid.isHexDigit 12 g5 [] h5 a5
    simpa using this
  rw [h5e]

end StringToUUIDLemmas

section DerivedUuidTheorems

/-- The hex rendering of a value below `16 ^ 8` has at most 8 digits. -/
theorem toHexNat_length_le8 (n : Nat) (h : n < 4294967296) :
    (UuidUtils.toHexNat n).length ≤ 8 := by
  unfold UuidUtils.toHexNat
  refine toHexCore_length_le _ _ 8 (by norm_num) ?_
  have hp : (16 : Nat) ^ 8 = 4294967296 := by norm_num
  omega

/-- All characters of the hex rendering are hex digits. -/
theorem toHexNat_hex (n : Nat) :
    ∀ c ∈ UuidUtils.toHexNat n, JsUuid.isHexDigit c = true :=
  fun c hc => toHexCore_hex (n + 1) n c hc

/-- Every UUID derived by `stringToUUID` passes the strict validator:
the layout is forced by the construction and the hash digits are hex. -/
theorem stringToUUID_valid (s u : String) (h : UuidUtils.stringToUUID s = some u) :
    UuidUtils.isValidUUID u = true := by
  cases hb : s.data.isEmpty with
  | true => simp [UuidUtils.stringToUUID, hb] at h
  | false =>
    simp only [UuidUtils.stringToUUID, hb, Bool.false_eq_true, if_false,
      Option.some.injEq] at h
    subst h
    have habs := jsHash_natAbs_lt s.data
    set N := (UuidUtils.jsHash s.data).natAbs with hN
    set hex0 := UuidUtils.toHexNat N with hhex0
    have hl : hex0.length ≤ 8 := by rw [hhex0]; exact toHexNat_length_le8 N habs
    set padded := List.replicate (32 - hex0.length) '0' ++ hex0 with hpadded
    have hplen : padded.length = 32 := by
      rw [hpadded]
      simp only [List.length_append, List.length_replicate]
      omega
    have hBIG : (if 32 < padded.length then padded.take 32 else padded) = padded :=
      if_neg (by omega)
    rw [hBIG]
    have hPhex : ∀ c ∈ padded, JsUuid.isHexDigit c = true := by
      intro c hc
      rw [hpadded] at hc
      rcases List.mem_append.mp hc with h1 | h2
      · rw [List.eq_of_mem_replicate h1]; exact isHexDigit_zeroChar
      · rw [hhex0] at h2; exact toHexNat_hex N c h2
    exact isValidUUID_ofParts _ _ _ _ _ _
      (by rw [jsSlice_length, hplen]; decide)
      (by rw [jsSlice_length, hplen]; decide)
      (by rw [jsSlice_length, hplen]; decide)
      (by rw [jsSlice_length, hplen]; decide)
      (by rw [jsSlice_length, hplen]; decide)
      (fun c hc => hPhex c (jsSlice_mem _ _ _ c hc))
      (fun c hc => hPhex c (jsSlice_mem _ _ _ c hc))
      (fun c hc => hPhex c (jsSlice_mem _ _ _ c hc))
      (fun c hc => hPhex c (jsSlice_mem _ _ _ c hc))
      (fun c hc => hPhex c (jsSlice_mem _ _ _ c hc))
      (isVariantChar_variantFin _)

/-- A non-empty input never hits the throwing branch of `stringToUUID`. -/
theorem stringToUUID_isSome (s : String) (h : s.data.isEmpty = false) :
    ∃ u, UuidUtils.stringToUUID s = some u := by
  simp only [UuidUtils.stringToUUID, h, Bool.false_eq_true, if_false]
  exact ⟨_, rfl⟩

end DerivedUuidTheorems

/-- Submission status values used by the pipeline
(`pending | processing | completed | error`). -/
inductive Status
  | pending
  | processing
  | completed
  | error
deriving DecidableEq, Repr

/-- Terminal statuses: once reached, a record is final. -/
def Status.isTerminal : Status → Bool
  | Status.completed => true
  | Status.error => true
  | _ => false

namespace EdgeFn

/-- The `input_type` union of `ProblemSubmissionRequest`. -/
inductive InputType
  | text
  | image
  | voice
deriving DecidableEq, Repr

/-- The request body of the edge function.  Absent JSON fields are `none`. -/
structure Request where
  input_type : Option InputType
  title : Option String
  description : Option String := none
  text_content : Option String := none
  image_data : Option String := none
  voice_url : Option String := none
  user_id : Option String := none
deriving DecidableEq

/-- JavaScript falsiness of an optional string field:
absent (`undefined`) or the empty string. -/
def falsy : Option String → Bool
  | none => true
  | some s => s.isEmpty

/-- The validation block of the handler: `input_type` and `title` are
required, and the payload matching the input type is required
(`text_content` / `image_data` / `voice_url`).  Any violation throws. -/
def validRequest (r : Request) : Bool :=
  match r.input_type with
  | none => false
  | some t =>
    if falsy r.title then false
    else
      match t with
      | InputType.text => !falsy r.text_content
      | InputType.image => !falsy r.image_data
      | InputType.voice => !falsy r.voice_url

/-- The `user_id` resolution of the handler: falsy (absent or empty) uses
`DEFAULT_USER_ID`; a present value failing the handler's `isValidUUID` is
replaced by a fresh `generateUUID()`. -/
def resolveUserId (uid : Option String) (rnd : Nat → Fin 16) : String :=
  match uid with
  | none => DEFAULT_USER_ID
  | some u =>
    if u.isEmpty then DEFAULT_USER_ID
    else if isValidUUID u then u
    else generateUUID rnd

/-- Outcome of the `fetch` call to the provider: a 2xx response with a body,
a non-2xx response, or a thrown transport error. -/
inductive FetchOutcome
  | ok (body : String)
  | httpError (status : Nat) (text : String)
  | throwsErr
deriving DecidableEq

/-- A successful (persisted) database write issued by the handler. -/
inductive DbWrite
  | insertUser (id : String)
  | insertSubmission (id owner : String) (status : Status)
  | updateSubmission (id : String) (status : Status)
deriving DecidableEq, Repr

/-- The JSON response of the handler, restricted to the fields the claims
are about. -/
structure HandlerResponse where
  success : Bool
  problemId : Option String
  status : Option Status
deriving DecidableEq

/-- The observable outcome of one handler invocation: the persisted writes,
in order, and the response. -/
structure SubmitOutcome where
  writes : List DbWrite
  response : HandlerResponse
deriving DecidableEq

/-- Environment of one handler invocation: which fallible steps succeed and
the outcome of the provider call.  `errorUpdateOk` models whether the
fire-and-forget `status='error'` update write is persisted (the code ignores
its result); `completedUpdateOk` models the final `status='completed'` update,
whose failure the code turns into a thrown error.  `rndOwner`/`rndProblem` are
the nibble streams consumed by the two `generateUUID()` call sites. -/
structure HandlerEnv where
  apiKeyPresent : Bool
  userExists : Bool
  createUserOk : Bool
  insertOk : Bool
  fetch : FetchOutcome
  errorUpdateOk : Bool
  completedUpdateOk : Bool
  rndOwner : Nat → Fin 16
  rndProblem : Nat → Fin 16

/-- The `serve` handler of the edge function, as a function from its
environment and request to its persisted writes and response.
Branches, in source order:
validation failure throws into the outer catch (no write, `success:false`);
the user-profile check/insert is best-effort (its failure is ignored);
a failed submission insert throws into the outer catch;
a missing `GOOGLE_API_KEY` updates the record to `error` (result ignored)
and returns `success:false`;
a thrown fetch lands in the outer catch, which performs NO update;
a non-2xx response updates the record to `error` and returns `success:false`;
on a 2xx response the record is updated to `completed`; if that update fails
the handler throws into the outer catch, which again performs NO update. -/
def submitProblem (env : HandlerEnv) (req : Request) : SubmitOutcome :=
  if validRequest req = false then
    { writes := [], response := { success := false, problemId := none, status := none } }
  else
    let userId := resolveUserId req.user_id env.rndOwner
    let userWrites :=
      if env.userExists then []
      else if env.createUserOk then [DbWrite.insertUser userId] else []
    let problemId := generateUUID env.rndProblem
    if env.insertOk = false then
      { writes := userWrites,
        response := { success := false, problemId := none, status := none } }
    else
      let base := userWrites ++ [DbWrite.insertSubmission problemId userId Status.processing]
      if env.apiKeyPresent = false then
        { writes := base ++
            (if env.errorUpdateOk then [DbWrite.updateSubmission problemId Status.error] else []),
          response := { success := false, problemId := some problemId, status := none } }
      else
        match env.fetch with
        | FetchOutcome.throwsErr =>
          { writes := base,
            response := { success := false, problemId := none, status := none } }
        | FetchOutcome.httpError _ _ =>
          { writes := base ++
              (if env.errorUpdateOk then [DbWrite.updateSubmission problemId Status.error] else []),
            response := { success := false, problemId := some problemId, status := none } }
        | FetchOutcome.ok _ =>
          if env.completedUpdateOk then
            { writes := base ++ [DbWrite.updateSubmission problemId Status.completed],
              response := { success := true, problemId := some problemId,
                            status := some Status.completed } }
          else
            { writes := base,
              response := { success := false, problemId := none, status := none } }

/-- The submission row, restricted to the fields the claims are about. -/
structure Submission where
  id : String
  owner : String
  status : Status
deriving DecidableEq, Repr

/-- Replay one persisted write against the (at most one) submission row of
this invocation. -/
def applyWrite (db : Option Submission) (w : DbWrite) : Option Submission :=
  match w with
  | DbWrite.insertUser _ => db
  | DbWrite.insertSubmission id owner st => some { id := id, owner := owner, status := st }
  | DbWrite.updateSubmission id st =>
    match db with
    | some r => if r.id = id then some { r with status := st } else some r
    | none => none

/-- The submission record as persisted after the handler finishes. -/
def finalRecord (env : HandlerEnv) (req : Request) : Option Submission :=
  (submitProblem env req).writes.foldl applyWrite none

/-- The writes that touch the `problem_submissions` table. -/
def submissionWrites (o : SubmitOutcome) : List DbWrite :=
  o.writes.filter fun w =>
    match w with
    | DbWrite.insertUser _ => false
    | _ => true

end EdgeFn

namespace Security

/-- `SecurityConfig` from `lib/security.ts`. -/
structure SecurityConfig where
  maxFileSize : Nat
  allowedFileTypes : List String
  sessionTimeout : Nat
  maxRequestsPerMinute : Nat
  encryptSensitiveData : Bool

/-- `defaultSecurityConfig` from `lib/security.ts`. -/
def defaultSecurityConfig : SecurityConfig :=
  { maxFileSize := 10 * 1024 * 1024
    allowedFileTypes := ["image/jpeg", "image/png", "image/webp", "audio/mpeg", "audio/wav"]
    sessionTimeout := 60
    maxRequestsPerMinute := 30
    encryptSensitiveData := true }

/-- One value of the `rateLimitCache` map. -/
structure RateLimitEntry where
  count : Nat
  resetTime : Nat
deriving DecidableEq, Repr

/-- The `rateLimitCache : Map<string, entry>`, as an association list in
which the most recent binding of a key shadows older ones. -/
abbrev RateLimitCache := List (String × RateLimitEntry)

/-- `Map.get`. -/
def cacheGet (m : RateLimitCache) (k : String) : Option RateLimitEntry :=
  m.lookup k

/-- `Map.set` (and the in-place `current.count++`, which is observationally
the same): the new binding shadows any older one. -/
def cacheSet (m : RateLimitCache) (k : String) (v : RateLimitEntry) : RateLimitCache :=
  (k, v) :: m

/-- `SecurityManager.checkRateLimit`: fixed 60s window; a missing or expired
entry resets to count 1 and allows; at `count >= limit` the call is denied
and the state unchanged; otherwise the count is incremented and the call
allowed.  `now` is `Date.now()` in milliseconds. -/
def checkRateLimit (config : SecurityConfig) (m : RateLimitCache) (identifier : String)
    (now : Nat) : Bool × RateLimitCache :=
  let windowMs := 60 * 1000
  let limit := config.maxRequestsPerMinute
  match cacheGet m identifier with
  | none => (true, cacheSet m identifier { count := 1, resetTime := now + windowMs })
  | some current =>
    if now > current.resetTime then
      (true, cacheSet m identifier { count := 1, resetTime := now + windowMs })
    else if current.count ≥ limit then
      (false, m)
    else
      (true, cacheSet m identifier { count := current.count + 1, resetTime := current.resetTime })

/-- Iterate `checkRateLimit` for one key over a list of call times,
collecting the returned booleans. -/
def runCalls (config : SecurityConfig) (m : RateLimitCache) (identifier : String) :
    List Nat → List Bool × RateLimitCache
  | [] => ([], m)
  | t :: ts =>
    let r := checkRateLimit config m identifier t
    let rest := runCalls config r.2 identifier ts
    (r.1 :: rest.1, rest.2)

end Security

namespace SessionHook

/-- Result of loading the session row inside `validateSessionSecurity`:
a query error or a missing row collapse to `failure` (the code treats
`error || !sessionData` alike); otherwise the row carries `session_start`
in milliseconds since epoch. -/
inductive SessionLoad
  | failure
  | row (sessionStart : Int)
deriving DecidableEq

/-- The local effect of `validateSessionSecurity`: nothing, `setSession(null)`,
or `endSession(session.id)`. -/
inductive SessionEffect
  | keep
  | clearLocal
  | endSess
deriving DecidableEq, Repr

/-- `hoursSinceStart = (now.getTime() - sessionStart.getTime()) / (1000 * 60 * 60)`,
as exact rational arithmetic (the double-precision quotient compares to 1
exactly as the rational does for integer millisecond inputs). -/
def hoursSinceStart (now start : Int) : ℚ :=
  ((now - start : Int) : ℚ) / (1000 * 60 * 60)

/-- `validateSessionSecurity` from `useSecureSession`: without a local session
and user it just fails; a load failure clears local state and fails; a loaded
row fails and ends the session when `hoursSinceStart > 1`, and succeeds
otherwise. -/
def validateSessionSecurity (localSessionId : Option String) (userId : Option String)
    (load : SessionLoad) (now : Int) : Bool × SessionEffect :=
  match localSessionId, userId with
  | some _, some _ =>
    (match load with
     | SessionLoad.failure => (false, SessionEffect.clearLocal)
     | SessionLoad.row start =>
       if 1 < hoursSinceStart now start then (false, SessionEffect.endSess)
       else (true, SessionEffect.keep))
  | _, _ => (false, SessionEffect.keep)

end SessionHook

namespace PollHook

/-- The client-side result object maintained by `useProblemSubmission`,
restricted to the fields the claims are about. -/
structure ProblemResult where
  id : String
  status : Status
  solution : Option String
  errorMessage : Option String
deriving DecidableEq, Repr

/-- Outcome of the status query of one poll tick: the query returned an
error object, the row was missing, the row was read, or the tick threw
(caught by the surrounding `catch`). -/
inductive PollFetch
  | fetchErr
  | missing
  | row (status : Status) (solution : Option String) (errorMessage : Option String)
  | throwsErr
deriving DecidableEq

/-- Local state of the polling loop: the captured `attempts` counter and the
hook's `result` and `error` states. -/
structure PollState where
  attempts : Nat
  result : Option ProblemResult
  error : Option String
deriving DecidableEq, Repr

/-- `maxAttempts = 60` (2 minutes at 2-second intervals). -/
def maxAttempts : Nat := 60

/-- Message set by a failing status query (and by the `catch` handler). -/
def checkFailMsg : String := "Failed to check problem status"

/-- Message set when the row cannot be found. -/
def notFoundMsg : String := "Problem not found"

/-- Message set when the attempt cap is exhausted. -/
def timeoutMsg : String := "Problem processing timed out"

/-- Default message for a terminal `error` row with no `error_message`. -/
def procFailMsg : String := "Problem processing failed"

/-- JavaScript `a || b` on an optional string: falsy (absent or empty)
falls back. -/
def jsOrStr (a : Option String) (b : String) : String :=
  match a with
  | none => b
  | some s => if s.isEmpty then b else s

/-- One execution of the `poll` closure.  Returns the new state, the delay of
the rescheduled tick (`some 2000` exactly when `setTimeout(poll, 2000)` runs,
`none` when the loop stops), and the writes issued to the store (the tick
only ever runs a `select`, so this list is empty in every branch).
Branches, in source order: an invalid problem id throws into the `catch`;
a query error sets the check-failure error and returns; a missing row sets
the not-found error and returns; otherwise the result state is replaced and
a terminal status stops the loop (setting the processing-failure message on
`error` status); a non-terminal status increments `attempts` and reschedules
while under the cap, else sets the timeout error. -/
def pollTick (problemId : String) (st : PollState) (f : PollFetch) :
    PollState × Option Nat × List EdgeFn.DbWrite :=
  if EdgeFn.isValidUUID problemId = false then
    ({ st with error := some checkFailMsg }, none, [])
  else
    match f with
    | PollFetch.fetchErr => ({ st with error := some checkFailMsg }, none, [])
    | PollFetch.missing => ({ st with error := some notFoundMsg }, none, [])
    | PollFetch.throwsErr => ({ st with error := some checkFailMsg }, none, [])
    | PollFetch.row status sol em =>
      let newResult : ProblemResult :=
        { id := problemId, status := status, solution := sol, errorMessage := em }
      let st1 := { st with result := some newResult }
      if status = Status.completed || status = Status.error then
        (if status = Status.error then { st1 with error := some (jsOrStr em procFailMsg) }
         else st1, none, [])
      else
        let a := st.attempts + 1
        if a < maxAttempts then ({ st1 with attempts := a }, some 2000, [])
        else ({ st1 with attempts := a, error := some timeoutMsg }, none, [])

/-- Aggregate outcome of running the poll loop. -/
structure PollRun where
  final : PollState
  ticks : Nat
  delays : List Nat
  writes : List EdgeFn.DbWrite
deriving DecidableEq, Repr

/-- Run the poll loop against a record whose stored status stays `processing`
on every read (`fuel` bounds the recursion; the loop itself stops via its
attempt cap). -/
def pollStuck (problemId : String) : Nat → PollState → PollRun
  | 0, st => { final := st, ticks := 0, delays := [], writes := [] }
  | fuel + 1, st =>
    let r := pollTick problemId st (PollFetch.row Status.processing none none)
    match r.2.1 with
    | none => { final := r.1, ticks := 1, delays := [], writes := r.2.2 }
    | some d =>
      let rest := pollStuck problemId fuel r.1
      { final := rest.final, ticks := rest.ticks + 1, delays := d :: rest.delays,
        writes := r.2.2 ++ rest.writes }

end PollHook

namespace Fixture

/-- An all-zero nibble stream for concrete evaluations. -/
def rnd0 : Nat → Fin 16 := fun _ => 0

/-- The UUID generated from the all-zero stream. -/
def pid0 : String := "00000000-0000-4000-8000-000000000000"

/-- Environment in which every step succeeds and the provider answers 2xx. -/
def envOk : EdgeFn.HandlerEnv :=
  { apiKeyPresent := true, userExists := true, createUserOk := true, insertOk := true,
    fetch := EdgeFn.FetchOutcome.ok "SOLUTION", errorUpdateOk := true,
    completedUpdateOk := true, rndOwner := rnd0, rndProblem := rnd0 }

/-- Same, but the provider fetch throws a transport error. -/
def envThrow : EdgeFn.HandlerEnv := { envOk with fetch := EdgeFn.FetchOutcome.throwsErr }

/-- Same, but the final `completed` update fails. -/
def envUpdFail : EdgeFn.HandlerEnv := { envOk with completedUpdateOk := false }

/-- A valid text submission with no `user_id` (Scenario A shape). -/
def reqText : EdgeFn.Request :=
  { input_type := some EdgeFn.InputType.text, title := some "T",
    text_content := some "2+2?" }

/-- An image submission with no `image_data` (Scenario B shape). -/
def reqImageNoData : EdgeFn.Request :=
  { input_type := some EdgeFn.InputType.image, title := some "T" }

/-- A supplied owner id that matches the 8-4-4-4-12 hex shape but has version
nibble `1` and variant nibble `7`, so it fails strict UUID v4 validation. -/
def looseOnlyId : String := "aaaaaaaa-aaaa-1aaa-7aaa-aaaaaaaaaaaa"

/-- The text submission with `looseOnlyId` supplied as owner. -/
def reqLooseOwner : EdgeFn.Request := { reqText with user_id := some looseOnlyId }

/-- A supplied owner id that fails even the loose 8-4-4-4-12 shape. -/
def reqBadOwner : EdgeFn.Request := { reqText with user_id := some "not-a-uuid" }

end Fixture

example : UuidUtils.generateUUID Fixture.rnd0 = Fixture.pid0 := by decide

/-- Claim C8: a submit request missing `input_type` or `title`, or missing the
payload its `input_type` requires, is rejected synchronously with an
unsuccessful response, and no write of any kind — in particular no submission
record — is persisted. -/
theorem C8_validation_rejects_without_persisting
    (env : EdgeFn.HandlerEnv) (req : EdgeFn.Request)
    (h : EdgeFn.validRequest req = false) :
    (EdgeFn.submitProblem env req).writes = [] ∧
    (EdgeFn.submitProblem env req).response.success = false ∧
    EdgeFn.finalRecord env req = none := by
  refine ⟨?_, ?_, ?_⟩ <;> simp [EdgeFn.submitProblem, EdgeFn.finalRecord, h]

/-- Witness for C8 at Scenario B (`input_type: image`, no `image_data`). -/
theorem C8_validation_rejects_without_persisting_witness :
    (EdgeFn.submitProblem Fixture.envOk Fixture.reqImageNoData).writes = [] ∧
    (EdgeFn.submitProblem Fixture.envOk Fixture.reqImageNoData).response.success = false ∧
    EdgeFn.finalRecord Fixture.envOk Fixture.reqImageNoData = none :=
  C8_validation_rejects_without_persisting Fixture.envOk Fixture.reqImageNoData (by decide)

/-- Claim C1 (refuted by the code, recorded as a code bug): after the insert
succeeded, a thrown provider fetch or a failed final update reaches the outer
catch, which returns `success:false` WITHOUT updating the record — the
persisted submission stays at the non-terminal status `processing`. -/
theorem C1_postinsert_failure_leaves_processing :
    (EdgeFn.finalRecord Fixture.envThrow Fixture.reqText).map EdgeFn.Submission.status =
      some Status.processing ∧
    (EdgeFn.finalRecord Fixture.envUpdFail Fixture.reqText).map EdgeFn.Submission.status =
      some Status.processing ∧
    Status.processing.isTerminal = false ∧
    (EdgeFn.submitProblem Fixture.envThrow Fixture.reqText).response.success = false ∧
    (EdgeFn.submitProblem Fixture.envUpdFail Fixture.reqText).response.success = false := by
  decide

/-- Claim C2: per handler invocation, the submission-table write sequence is
empty, a single insert at `processing`, or an insert at `processing` followed
by exactly one update to a terminal status for the same id.  Hence a record is
created at `processing`, every later write is terminal, and no write ever
follows a terminal write (no regression, no terminal-to-terminal move).
The edge function is the only writer of `problem_submissions` in the
repository (the hooks only select). -/
theorem C2_status_moves_forward_only
    (env : EdgeFn.HandlerEnv) (req : EdgeFn.Request) :
    EdgeFn.submissionWrites (EdgeFn.submitProblem env req) = [] ∨
    (∃ pid owner, EdgeFn.submissionWrites (EdgeFn.submitProblem env req) =
      [EdgeFn.DbWrite.insertSubmission pid owner Status.processing]) ∨
    (∃ pid owner t, t.isTerminal = true ∧
      EdgeFn.submissionWrites (EdgeFn.submitProblem env req) =
        [EdgeFn.DbWrite.insertSubmission pid owner Status.processing,
         EdgeFn.DbWrite.updateSubmission pid t]) := by
  rcases env with ⟨api, uex, cok, iok, fetch, eok, cupd, ro, rp⟩
  cases hval : EdgeFn.validRequest req <;>
    cases api <;> cases uex <;> cases cok <;> cases iok <;> cases eok <;> cases cupd <;>
    cases fetch <;>
    simp only [EdgeFn.submitProblem, EdgeFn.submissionWrites, hval] <;>
    first
    | exact Or.inl rfl
    | exact Or.inr (Or.inl ⟨_, _, rfl⟩)
    | exact Or.inr (Or.inr ⟨_, _, Status.error, rfl, rfl⟩)
    | exact Or.inr (Or.inr ⟨_, _, Status.completed, rfl, rfl⟩)

section OwnerLemmas

/-- The guest id passes the handler's own (loose) UUID validation. -/
theorem DEFAULT_USER_ID_loose_valid : EdgeFn.isValidUUID EdgeFn.DEFAULT_USER_ID = true := by
  decide

/-- The guest id fails the strict UUID v4 validation of `utils/uuid.ts`
(its version nibble is `5` and its variant nibble is `1`). -/
theorem DEFAULT_USER_ID_not_strict :
    UuidUtils.isValidUUID EdgeFn.DEFAULT_USER_ID = false := by decide

/-- Whatever the handler resolves as owner passes its own loose validation. -/
theorem resolveUserId_loose_valid (uid : Option String) (rnd : Nat → Fin 16) :
    EdgeFn.isValidUUID (EdgeFn.resolveUserId uid rnd) = true := by
  cases uid with
  | none => exact DEFAULT_USER_ID_loose_valid
  | some u =>
    cases h1 : u.isEmpty <;> cases h2 : EdgeFn.isValidUUID u <;>
      simp [EdgeFn.resolveUserId, h1, h2, DEFAULT_USER_ID_loose_valid,
        EdgeFn.generateUUID, generateUUID_loose_valid]

/-- The owner of the persisted record is exactly the handler's resolved
user id. -/
theorem finalRecord_owner (env : EdgeFn.HandlerEnv) (req : EdgeFn.Request)
    (r : EdgeFn.Submission) (h : EdgeFn.finalRecord env req = some r) :
    r.owner = EdgeFn.resolveUserId req.user_id env.rndOwner := by
  rcases env with ⟨api, uex, cok, iok, fetch, eok, cupd, ro, rp⟩
  revert h
  cases hval : EdgeFn.validRequest req <;>
    cases api <;> cases uex <;> cases cok <;> cases iok <;> cases eok <;> cases cupd <;>
    cases fetch <;>
    simp only [EdgeFn.finalRecord, EdgeFn.submitProblem, EdgeFn.applyWrite, hval,
      List.foldl, eq_self_iff_true, if_true, if_false, Option.some.injEq] <;>
    intro h <;>
    first
    | exact Option.noConfusion h
    | (subst h; rfl)

/-- When validation passes and the insert succeeds, a record is persisted. -/
theorem finalRecord_isSome (env : EdgeFn.HandlerEnv) (req : EdgeFn.Request)
    (h1 : EdgeFn.validRequest req = true) (h2 : env.insertOk = true) :
    ∃ r, EdgeFn.finalRecord env req = some r := by
  rcases env with ⟨api, uex, cok, iok, fetch, eok, cupd, ro, rp⟩
  simp only at h2
  subst h2
  cases api <;> cases uex <;> cases cok <;> cases eok <;> cases cupd <;> cases fetch <;>
    simp only [EdgeFn.finalRecord, EdgeFn.submitProblem, EdgeFn.applyWrite, h1,
      List.foldl, eq_self_iff_true, if_true, if_false] <;>
    exact ⟨_, rfl⟩

end OwnerLemmas

/-- Claim C3 counterexample: with no owner supplied, the persisted owner is
`DEFAULT_USER_ID`, and that identifier FAILS UUIDv4 validation with version
nibble `4` and variant in 8/9/a/b — so the claim that every persisted owner
passes that validation is false on the code. -/
theorem C3_counterexample_guest_id_fails_strict :
    (EdgeFn.finalRecord Fixture.envOk Fixture.reqText).map EdgeFn.Submission.owner =
      some EdgeFn.DEFAULT_USER_ID ∧
    UuidUtils.isValidUUID EdgeFn.DEFAULT_USER_ID = false := by decide

/-- Claim C3 (amended): every persisted submission has an owner id that
passes the HANDLER's UUID format validation (8-4-4-4-12 hex, case-insensitive,
without version/variant constraints): a supplied id valid under that check is
kept, a supplied (non-empty) id invalid under it is replaced by the freshly
generated id, and an absent or empty owner falls back to the well-known guest
identifier — which itself satisfies that same loose validation. -/
theorem C3_amended_owner_passes_handler_validation
    (env : EdgeFn.HandlerEnv) (req : EdgeFn.Request) (r : EdgeFn.Submission)
    (h : EdgeFn.finalRecord env req = some r) :
    EdgeFn.isValidUUID r.owner = true ∧
    r.owner = EdgeFn.resolveUserId req.user_id env.rndOwner ∧
    (EdgeFn.falsy req.user_id = true → r.owner = EdgeFn.DEFAULT_USER_ID) ∧
    (∀ u, req.user_id = some u → u.isEmpty = false → EdgeFn.isValidUUID u = true →
      r.owner = u) ∧
    (∀ u, req.user_id = some u → u.isEmpty = false → EdgeFn.isValidUUID u = false →
      r.owner = EdgeFn.generateUUID env.rndOwner) ∧
    EdgeFn.isValidUUID EdgeFn.DEFAULT_USER_ID = true := by
  have howner := finalRecord_owner env req r h
  refine ⟨?_, howner, ?_, ?_, ?_, DEFAULT_USER_ID_loose_valid⟩
  · rw [howner]; exact resolveUserId_loose_valid _ _
  · intro hf
    rw [howner]
    cases hu : req.user_id with
    | none => simp [EdgeFn.resolveUserId]
    | some u =>
      rw [hu] at hf
      simp only [EdgeFn.falsy] at hf
      simp [EdgeFn.resolveUserId, hf]
  · intro u hu hne hv
    rw [howner, hu]
    simp [EdgeFn.resolveUserId, hne, hv]
  · intro u hu hne hv
    rw [howner, hu]
    simp [EdgeFn.resolveUserId, hne, hv]

/-- Witness for the amended C3: the guest-owner record of a request without
`user_id` passes the handler's validation. -/
theorem C3_amended_owner_passes_handler_validation_witness :
    EdgeFn.isValidUUID
      (EdgeFn.Submission.mk Fixture.pid0 EdgeFn.DEFAULT_USER_ID Status.completed).owner =
      true :=
  (C3_amended_owner_passes_handler_validation Fixture.envOk Fixture.reqText
    (EdgeFn.Submission.mk Fixture.pid0 EdgeFn.DEFAULT_USER_ID Status.completed)
    (by decide)).1

/-- Claim C5 counterexample: `looseOnlyId` fails the UUID validation the spec
defines (version nibble `4`, variant 8/9/a/b), yet the handler keeps it: the
persisted owner IS the supplied id, not a freshly generated one. -/
theorem C5_counterexample_loose_id_kept :
    UuidUtils.isValidUUID Fixture.looseOnlyId = false ∧
    (EdgeFn.finalRecord Fixture.envOk Fixture.reqLooseOwner).map EdgeFn.Submission.owner =
      some Fixture.looseOnlyId := by decide

/-- Claim C5 (amended): when the supplied (non-empty) owner id fails the
HANDLER's own UUID format check, the submission is still processed, and the
persisted owner is the freshly generated id — which passes both the handler's
check and strict UUIDv4 validation, and differs from the supplied id and from
the guest id. -/
theorem C5_amended_invalid_owner_replaced
    (env : EdgeFn.HandlerEnv) (req : EdgeFn.Request) (u : String)
    (hu : req.user_id = some u) (hne : u.isEmpty = false)
    (hv : EdgeFn.isValidUUID u = false) :
    (EdgeFn.validRequest req = true → env.insertOk = true →
      ∃ r, EdgeFn.finalRecord env req = some r) ∧
    (∀ r, EdgeFn.finalRecord env req = some r →
      r.owner = EdgeFn.generateUUID env.rndOwner ∧
      EdgeFn.isValidUUID r.owner = true ∧
      UuidUtils.isValidUUID r.owner = true ∧
      r.owner ≠ u ∧
      r.owner ≠ EdgeFn.DEFAULT_USER_ID) := by
  constructor
  · exact fun hvr hins => finalRecord_isSome env req hvr hins
  · intro r h
    have howner := finalRecord_owner env req r h
    have hgen : r.owner = EdgeFn.generateUUID env.rndOwner := by
      rw [howner, hu]; simp [EdgeFn.resolveUserId, hne, hv]
    have hstrict : UuidUtils.isValidUUID r.owner = true := by
      rw [hgen]; exact generateUUID_strict_valid _
    have hloose : EdgeFn.isValidUUID r.owner = true := by
      rw [hgen]; exact generateUUID_loose_valid _
    refine ⟨hgen, hloose, hstrict, ?_, ?_⟩
    · intro he
      rw [he, hv] at hloose
      exact Bool.noConfusion hloose
    · intro he
      rw [he, DEFAULT_USER_ID_not_strict] at hstrict
      exact Bool.noConfusion hstrict

/-- Witness for the amended C5: a supplied `not-a-uuid` owner is replaced by
the generated id. -/
theorem C5_amended_invalid_owner_replaced_witness :
    (EdgeFn.Submission.mk Fixture.pid0 Fixture.pid0 Status.completed).owner =
      EdgeFn.generateUUID Fixture.envOk.rndOwner :=
  ((C5_amended_invalid_owner_replaced Fixture.envOk Fixture.reqBadOwner "not-a-uuid"
    rfl (by decide) (by decide)).2
    (EdgeFn.Submission.mk Fixture.pid0 Fixture.pid0 Status.completed) (by decide)).1

section RateLimitLemmas

/-- Reading back the freshly written binding. -/
theorem cacheGet_set (m : Security.RateLimitCache) (k : String) (v : Security.RateLimitEntry) :
    Security.cacheGet (Security.cacheSet m k v) k = some v := by
  simp [Security.cacheGet, Security.cacheSet, List.lookup]

/-- Within a live window: starting from a count `c` with `c + n ≤ 30`, the
next `n` calls all succeed and just bump the count, leaving the reset time
unchanged. -/
theorem runCalls_within (key : String) (R : Nat) :
    ∀ (ts : List Nat) (m : Security.RateLimitCache) (c : Nat),
      Security.cacheGet m key = some ⟨c, R⟩ →
      (∀ t ∈ ts, t ≤ R) →
      c + ts.length ≤ 30 →
      (Security.runCalls Security.defaultSecurityConfig m key ts).1 =
        List.replicate ts.length true ∧
      Security.cacheGet (Security.runCalls Security.defaultSecurityConfig m key ts).2 key =
        some ⟨c + ts.length, R⟩ := by
  intro ts
  induction ts with
  | nil =>
    intro m c h _ _
    exact ⟨rfl, by simpa using h⟩
  | cons t ts ih =>
    intro m c h hin hle
    have ht : t ≤ R := hin t (List.mem_cons_self t ts)
    have hnotgt : ¬ t > R := by omega
    have hclt : ¬ c ≥ Security.defaultSecurityConfig.maxRequestsPerMinute := by
      simp only [Security.defaultSecurityConfig]
      simp only [List.length_cons] at hle
      omega
    have hstep :
        Security.checkRateLimit Security.defaultSecurityConfig m key t =
          (true, Security.cacheSet m key ⟨c + 1, R⟩) := by
      simp [Security.checkRateLimit, h, hnotgt, hclt]
    have hrest := ih (Security.cacheSet m key ⟨c + 1, R⟩) (c + 1)
      (cacheGet_set m key ⟨c + 1, R⟩)
      (fun x hx => hin x (List.mem_cons_of_mem t hx))
      (by simp only [List.length_cons] at hle; omega)
    constructor
    · simp only [Security.runCalls, hstep]
      rw [hrest.1]
      simp [List.replicate_succ]
    · simp only [Security.runCalls, hstep]
      rw [hrest.2]
      congr 1
      simp only [List.length_cons]
      congr 1
      omega

end RateLimitLemmas

/-- Claim C4: for a fixed key with no live window, with the default limit 30
and the 60-second window, the first 30 calls all return `true`; a 31st call
still inside the window returns `false` and leaves the bucket unchanged; and a
later call past the window's reset time returns `true` again with the counter
restarted at 1. -/
theorem C4_rate_limit_window
    (m0 : Security.RateLimitCache) (key : String) (t0 : Nat) (rest : List Nat)
    (t31 t32 : Nat)
    (h0 : Security.cacheGet m0 key = none)
    (hlen : rest.length = 29)
    (hin : ∀ t ∈ rest, t ≤ t0 + 60000)
    (h31 : t31 ≤ t0 + 60000)
    (h32 : t0 + 60000 < t32) :
    (Security.runCalls Security.defaultSecurityConfig m0 key (t0 :: rest)).1 =
      List.replicate 30 true ∧
    (Security.checkRateLimit Security.defaultSecurityConfig
      (Security.runCalls Security.defaultSecurityConfig m0 key (t0 :: rest)).2 key t31).1 =
      false ∧
    (Security.checkRateLimit Security.defaultSecurityConfig
      (Security.checkRateLimit Security.defaultSecurityConfig
        (Security.runCalls Security.defaultSecurityConfig m0 key (t0 :: rest)).2 key t31).2
      key t32).1 = true ∧
    Security.cacheGet
      (Security.checkRateLimit Security.defaultSecurityConfig
        (Security.checkRateLimit Security.defaultSecurityConfig
          (Security.runCalls Security.defaultSecurityConfig m0 key (t0 :: rest)).2 key t31).2
        key t32).2 key = some ⟨1, t32 + 60000⟩ := by
  have hstep0 :
      Security.checkRateLimit Security.defaultSecurityConfig m0 key t0 =
        (true, Security.cacheSet m0 key ⟨1, t0 + 60000⟩) := by
    simp [Security.checkRateLimit, h0]
  have hrest := runCalls_within key (t0 + 60000) rest
    (Security.cacheSet m0 key ⟨1, t0 + 60000⟩) 1
    (cacheGet_set m0 key ⟨1, t0 + 60000⟩) hin (by omega)
  have hruns :
      (Security.runCalls Security.defaultSecurityConfig m0 key (t0 :: rest)).1 =
        List.replicate 30 true ∧
      Security.cacheGet
        (Security.runCalls Security.defaultSecurityConfig m0 key (t0 :: rest)).2 key =
        some ⟨30, t0 + 60000⟩ := by
    constructor
    · simp only [Security.runCalls, hstep0]
      rw [hrest.1, hlen]
      rfl
    · simp only [Security.runCalls, hstep0]
      rw [hrest.2, hlen]
  have hnotgt31 : ¬ t31 > t0 + 60000 := by omega
  have hdeny :
      Security.checkRateLimit Security.defaultSecurityConfig
        (Security.runCalls Security.defaultSecurityConfig m0 key (t0 :: rest)).2 key t31 =
        (false, (Security.runCalls Security.defaultSecurityConfig m0 key (t0 :: rest)).2) := by
    simp only [Security.checkRateLimit]
    rw [hruns.2]
    simp [hnotgt31, Security.defaultSecurityConfig]
  refine ⟨hruns.1, by rw [hdeny], ?_, ?_⟩
  · rw [hdeny]
    simp only [Security.checkRateLimit]
    rw [hruns.2]
    simp [h32, Security.defaultSecurityConfig]
  · rw [hdeny]
    simp only [Security.checkRateLimit]
    rw [hruns.2]
    simp [h32, cacheGet_set, Security.defaultSecurityConfig]

/-- Witness for C4: 31 calls at time 0 from an empty cache, then one call
just past the window. -/
theorem C4_rate_limit_window_witness :
    (Security.runCalls Security.defaultSecurityConfig [] "k" (0 :: List.replicate 29 0)).1 =
      List.replicate 30 true ∧
    (Security.checkRateLimit Security.defaultSecurityConfig
      (Security.runCalls Security.defaultSecurityConfig [] "k" (0 :: List.replicate 29 0)).2
      "k" 0).1 = false ∧
    (Security.checkRateLimit Security.defaultSecurityConfig
      (Security.checkRateLimit Security.defaultSecurityConfig
        (Security.runCalls Security.defaultSecurityConfig [] "k"
          (0 :: List.replicate 29 0)).2 "k" 0).2
      "k" 60001).1 = true ∧
    Security.cacheGet
      (Security.checkRateLimit Security.defaultSecurityConfig
        (Security.checkRateLimit Security.defaultSecurityConfig
          (Security.runCalls Security.defaultSecurityConfig [] "k"
            (0 :: List.replicate 29 0)).2 "k" 0).2
        "k" 60001).2 "k" = some ⟨1, 60001 + 60000⟩ :=
  C4_rate_limit_window [] "k" 0 (List.replicate 29 0) 0 60001 rfl (by simp)
    (by decide) (by decide) (by decide)

/-- Claim C9: with a local session present, validation of a loaded session row
fails and ends the session exactly when more than 60 minutes have elapsed
since `session_start`, succeeds (with no effect) otherwise, and a session
that cannot be loaded clears the local state and fails.  The source compares
`(now - start) / (1000*60*60) > 1`; over integer milliseconds this is exactly
`now - start > 3600000`. -/
theorem C9_session_validation (sid uid : String) (start now : Int) :
    (SessionHook.validateSessionSecurity (some sid) (some uid)
        (SessionHook.SessionLoad.row start) now =
      (false, SessionHook.SessionEffect.endSess) ↔ 3600000 < now - start) ∧
    (SessionHook.validateSessionSecurity (some sid) (some uid)
        (SessionHook.SessionLoad.row start) now =
      (true, SessionHook.SessionEffect.keep) ↔ now - start ≤ 3600000) ∧
    SessionHook.validateSessionSecurity (some sid) (some uid)
      SessionHook.SessionLoad.failure now = (false, SessionHook.SessionEffect.clearLocal) := by
  have key : 1 < SessionHook.hoursSinceStart now start ↔ 3600000 < now - start := by
    unfold SessionHook.hoursSinceStart
    rw [lt_div_iff₀ (by norm_num : (0 : ℚ) < 1000 * 60 * 60)]
    rw [one_mul]
    constructor
    · intro h; exact_mod_cast h
    · intro h; exact_mod_cast h
  refine ⟨?_, ?_, rfl⟩
  · simp only [SessionHook.validateSessionSecurity]
    by_cases h : 1 < SessionHook.hoursSinceStart now start
    · have h1 := key.mp h
      simp [if_pos h, h1]
    · have h1 : ¬ 3600000 < now - start := fun hc => h (key.mpr hc)
      simp [if_neg h, h1]
  · simp only [SessionHook.validateSessionSecurity]
    by_cases h : 1 < SessionHook.hoursSinceStart now start
    · have h1 := key.mp h
      rw [if_pos h]
      constructor
      · intro hc; exact absurd hc (by simp)
      · intro hc; exact absurd hc (by omega)
    · have h1 : ¬ 3600000 < now - start := fun hc => h (key.mpr hc)
      rw [if_neg h]
      exact ⟨fun _ => by omega, fun _ => rfl⟩

/-- Claim C6 counterexample: on a tick whose status query returns an error,
the loop does NOT schedule a subsequent tick (`none` instead of a 2s delay),
even though no terminal status was observed and the attempt cap is far from
reached — refuting the claim that such a failure leaves the loop running. -/
theorem C6_counterexample_fetch_error_stops_loop :
    (PollHook.pollTick Fixture.pid0 ⟨0, none, none⟩ PollHook.PollFetch.fetchErr).2.1 = none ∧
    0 + 1 < PollHook.maxAttempts ∧
    (PollHook.pollTick Fixture.pid0 ⟨0, none, none⟩ PollHook.PollFetch.fetchErr).1.error =
      some PollHook.checkFailMsg := by decide

/-- Claim C6 (amended): a status-query failure is reported with a
status-check message distinct from the processing-failure and timeout
messages, but the polling loop stops on it: no subsequent tick is scheduled. -/
theorem C6_amended_fetch_error_distinct_but_aborts
    (pid : String) (st : PollHook.PollState) (h : EdgeFn.isValidUUID pid = true) :
    PollHook.pollTick pid st PollHook.PollFetch.fetchErr =
      ({ st with error := some PollHook.checkFailMsg }, none, []) ∧
    PollHook.checkFailMsg ≠ PollHook.procFailMsg ∧
    PollHook.checkFailMsg ≠ PollHook.timeoutMsg := by
  refine ⟨?_, by decide, by decide⟩
  simp [PollHook.pollTick, h]

/-- Witness for the amended C6 at a concrete id and fresh state. -/
theorem C6_amended_fetch_error_distinct_but_aborts_witness :
    PollHook.pollTick Fixture.pid0 ⟨0, none, none⟩ PollHook.PollFetch.fetchErr =
      ({ (⟨0, none, none⟩ : PollHook.PollState) with
          error := some PollHook.checkFailMsg }, none, []) ∧
    PollHook.checkFailMsg ≠ PollHook.procFailMsg ∧
    PollHook.checkFailMsg ≠ PollHook.timeoutMsg :=
  C6_amended_fetch_error_distinct_but_aborts Fixture.pid0 ⟨0, none, none⟩ (by decide)

section PollLemmas

/-- A poll tick never writes to the store: its only database operation is the
`select` modelled by the tick's input. -/
theorem pollTick_writes_nil (pid : String) (st : PollHook.PollState) (f : PollHook.PollFetch) :
    (PollHook.pollTick pid st f).2.2 = [] := by
  cases f <;> simp only [PollHook.pollTick] <;> split_ifs <;> rfl

/-- The whole poll loop never writes to the store. -/
theorem pollStuck_writes_nil (pid : String) :
    ∀ fuel st, (PollHook.pollStuck pid fuel st).writes = [] := by
  intro fuel
  induction fuel with
  | zero => intro st; rfl
  | succ fuel ih =>
    intro st
    simp only [PollHook.pollStuck]
    cases hnext : (PollHook.pollTick pid st
        (PollHook.PollFetch.row Status.processing none none)).2.1 with
    | none => simp [hnext, pollTick_writes_nil]
    | some d => simp [hnext, pollTick_writes_nil, ih]

/-- Under the attempt cap, the loop on a stuck record runs at most
`maxAttempts - attempts` more ticks, whatever the fuel. -/
theorem pollStuck_ticks_le (pid : String) :
    ∀ fuel (st : PollHook.PollState), st.attempts < PollHook.maxAttempts →
      (PollHook.pollStuck pid fuel st).ticks ≤ PollHook.maxAttempts - st.attempts := by
  intro fuel
  induction fuel with
  | zero =>
    intro st _
    simp [PollHook.pollStuck]
  | succ fuel ih =>
    intro st hst
    simp only [PollHook.maxAttempts] at hst
    cases hvalid : EdgeFn.isValidUUID pid with
    | false =>
      simp [PollHook.pollStuck, PollHook.pollTick, hvalid, PollHook.maxAttempts]
      omega
    | true =>
      by_cases hlt : st.attempts + 1 < 60
      · have hrec := ih { st with
          attempts := st.attempts + 1,
          result := some ⟨pid, Status.processing, none, none⟩ }
          (by simp only [PollHook.maxAttempts]; omega)
        simp only [PollHook.maxAttempts] at hrec
        simp [PollHook.pollStuck, PollHook.pollTick, hvalid, PollHook.maxAttempts, hlt]
        omega
      · simp [PollHook.pollStuck, PollHook.pollTick, hvalid, PollHook.maxAttempts, hlt]
        omega

end PollLemmas

/-- Claim C7: polling a record stuck at `processing` performs exactly 60
query attempts, each rescheduled at 2000 ms (59 reschedules), then reports the
client-side timeout error; the loop issues no store writes whatever its fuel
or state, so the server record stays `processing`, unmodified; and from a
fresh state the loop can never exceed 60 attempts regardless of available
fuel. -/
theorem C7_poll_timeout_client_side_only :
    PollHook.pollStuck Fixture.pid0 60 ⟨0, none, none⟩ =
      { final := { attempts := 60,
                   result := some ⟨Fixture.pid0, Status.processing, none, none⟩,
                   error := some PollHook.timeoutMsg },
        ticks := 60, delays := List.replicate 59 2000, writes := [] } ∧
    (∀ pid fuel st, (PollHook.pollStuck pid fuel st).writes = []) ∧
    (∀ pid fuel, (PollHook.pollStuck pid fuel ⟨0, none, none⟩).ticks ≤
      PollHook.maxAttempts) := by
  refine ⟨by decide, fun pid fuel st => pollStuck_writes_nil pid fuel st, ?_⟩
  intro pid fuel
  exact pollStuck_ticks_le pid fuel ⟨0, none, none⟩ (by simp [PollHook.maxAttempts])

section EnsureUuidLemmas

/-- The `namespace:value` concatenation is never empty. -/
theorem combined_nonempty (ns v : String) : (ns ++ ":" ++ v).data.isEmpty = false := by
  have hlen : (ns ++ ":" ++ v).data.length = ns.data.length + 1 + v.data.length := by
    simp [String.data_append]
    omega
  rw [List.isEmpty_eq_false]
  intro he
  rw [he] at hlen
  simp only [List.length_nil] at hlen
  omega

end EnsureUuidLemmas

/-- Claim C10: the derivation `stringToUUID` is a pure function of its input
(the source uses no randomness, so determinism is the statement that the
embedding is a function); on every non-empty input it succeeds and its output
passes the strict UUIDv4 validator, `createNamespacedUUID` always succeeds
with a strictly valid output, and `ensureUUID` is idempotent: whenever
`ensureUUID s` yields `t`, `ensureUUID t` yields `t` again. -/
theorem C10_deterministic_uuid_derivation :
    (∀ s : String, s.data.isEmpty = false →
      ∃ u, UuidUtils.stringToUUID s = some u ∧ UuidUtils.isValidUUID u = true) ∧
    (∀ ns v : String,
      ∃ u, UuidUtils.createNamespacedUUID ns v = some u ∧
        UuidUtils.isValidUUID u = true) ∧
    (∀ s t : String, UuidUtils.ensureUUID s = some t → UuidUtils.ensureUUID t = some t) := by
  refine ⟨?_, ?_, ?_⟩
  · intro s hs
    obtain ⟨u, hu⟩ := stringToUUID_isSome s hs
    exact ⟨u, hu, stringToUUID_valid s u hu⟩
  · intro ns v
    obtain ⟨u, hu⟩ := stringToUUID_isSome (ns ++ ":" ++ v) (combined_nonempty ns v)
    refine ⟨u, ?_, stringToUUID_valid _ u hu⟩
    simpa [UuidUtils.createNamespacedUUID] using hu
  · intro s t h
    unfold UuidUtils.ensureUUID at h ⊢
    by_cases hv : UuidUtils.isValidUUID s
    · rw [if_pos hv] at h
      cases Option.some.inj h
      rw [if_pos hv]
    · rw [if_neg hv] at h
      have hval := stringToUUID_valid s t h
      rw [if_pos hval]

set_option maxRecDepth 20000 in
/-- Witness for C10: `ensureUUID` maps `user_123` to a derived UUID, and is
the identity on that derived UUID. -/
theorem C10_deterministic_uuid_derivation_witness :
    UuidUtils.ensureUUID "00000000-0000-4000-8000-000000fde044" =
      some "00000000-0000-4000-8000-000000fde044" :=
  C10_deterministic_uuid_derivation.2.2 "user_123"
    "00000000-0000-4000-8000-000000fde044" (by decide)
